import Mathlib

/-!
Shallow embedding of `src/app_web.py` (Streamlit inventory app for
TI-GRUPOAURICA/inventario-ti-cloud).

The app has three persistence-touching operations:
* `init_db` — schema synchronizer: `CREATE TABLE IF NOT EXISTS` for
  `sitios` and `equipos`, an "add column if missing" loop of
  `ALTER TABLE equipos ADD COLUMN` statements each wrapped in a bare
  `try/except: pass`, and an `INSERT IGNORE` loop seeding three site names.
* the "Guardar Cambios" save handler — deletes equipment rows whose `id`
  is in the database but not on screen (only when the company filter is
  `"TODAS"`), then issues an `UPDATE` keyed by `codigo_inventario` for each
  screen row whose `codigo_inventario` is truthy.
* the "Crear Obra" handler — inserts a site name; a uniqueness violation is
  caught and shown as the message "Ya existe.".

Rows are modelled as Lean structures, tables as lists, SQL NULL as
`Option.none`, and the MySQL statements as pure functions on those lists.
The save handler is embedded as a statement trace (`Stmt`) plus an
executor, so that a fault injected at a statement index models a
persistence error thrown partway through the try block of the handler.
-/

/-- A row of the `equipos` table.  `id` is the integer primary key,
`codigo_inventario` is `VARCHAR(50) UNIQUE NOT NULL`; every other column is
nullable, so it is modelled as an `Option`. -/
structure Equipo where
  id : Nat
  codigo_inventario : String
  serie : Option String
  tipo : Option String
  marca_modelo : Option String
  usuario : Option String
  sitio_id : Option Nat
  ram : Option String
  procesador : Option String
  disco : Option String
  mainboard : Option String
  video : Option String
  antivirus : Option String
  windows_ver : Option String
  ultima_conexion : Option String
  codigo_manual : Option String
  detalles : Option String
  empresa : Option String
deriving Repr, DecidableEq

/-- A row of the `sitios` table: `id INT AUTO_INCREMENT PRIMARY KEY`,
`nombre VARCHAR(255) UNIQUE NOT NULL`. -/
structure Sitio where
  id : Nat
  nombre : String
deriving Repr, DecidableEq

/-- The column list the `CREATE TABLE IF NOT EXISTS equipos` statement
creates when the table is absent (src/app_web.py lines 36-47). -/
def equiposBaseCols : List String :=
  ["id", "codigo_inventario", "serie", "tipo", "marca_modelo", "usuario", "sitio_id"]

/-- The `nuevas_columnas` list of (name, type) pairs the migration loop
tries to add (src/app_web.py lines 52-64). -/
def nuevas_columnas : List (String × String) :=
  [("ram", "VARCHAR(50)"),
   ("procesador", "VARCHAR(100)"),
   ("disco", "VARCHAR(50)"),
   ("mainboard", "VARCHAR(100)"),
   ("video", "VARCHAR(150)"),
   ("antivirus", "VARCHAR(150)"),
   ("windows_ver", "VARCHAR(100)"),
   ("ultima_conexion", "DATETIME"),
   ("codigo_manual", "VARCHAR(50)"),
   ("detalles", "TEXT"),
   ("empresa", "VARCHAR(100) DEFAULT \x27Sin Asignar\x27")]

/-- The `estados` seed list (src/app_web.py line 72). -/
def estados : List String := ["LIBRE", "DEFECTUOSA", "OFICINA CENTRAL"]

/-- The persisted database state `init_db` manipulates.  A table that may
not exist yet is an `Option`: `sitios = none` means the `sitios` table is
absent.  For `sitios` we carry the rows together with the `AUTO_INCREMENT`
counter; for `equipos` we carry the column list (which the `ALTER TABLE`
loop grows) together with the rows (which `init_db` never touches). -/
structure SchemaState where
  sitios : Option (List Sitio × Nat)
  equipos : Option (List String × List Equipo)
deriving Repr, DecidableEq

/-- Error causes a MySQL statement can raise in this model. -/
inductive DbError where
  | duplicateColumn
  | otherError
deriving Repr, DecidableEq

/-- The two `CREATE TABLE IF NOT EXISTS` statements: each creates its table
only when absent and is a no-op otherwise. -/
def createTables (s : SchemaState) : SchemaState :=
  let s1 := match s.sitios with
    | some _ => s
    | none => { s with sitios := some ([], 1) }
  match s1.equipos with
  | some _ => s1
  | none => { s1 with equipos := some (equiposBaseCols, []) }

/-- One `ALTER TABLE equipos ADD COLUMN col ...` statement: raises
`duplicateColumn` when the column exists, raises the injected fault when the
oracle supplies one, and otherwise appends the column. -/
def alterAddColumn (fault : String → Option DbError) (cols : List String)
    (col : String) : Except DbError (List String) :=
  if cols.contains col then .error .duplicateColumn
  else match fault col with
    | some e => .error e
    | none => .ok (cols ++ [col])

/-- One iteration of the migration loop: the `ALTER` statement inside
`try: ... except: pass` — any failure leaves the columns unchanged and the
loop continues. -/
def alterStep (fault : String → Option DbError) (cs : List String)
    (p : String × String) : List String :=
  match alterAddColumn fault cs p.1 with
  | .ok cs2 => cs2
  | .error _ => cs

/-- The migration loop (src/app_web.py lines 66-69). -/
def alterLoop (fault : String → Option DbError) (cols : List String) : List String :=
  nuevas_columnas.foldl (alterStep fault) cols

/-- One `INSERT IGNORE INTO sitios (nombre) VALUES (%s)`: inserts the name
with the next auto-increment id unless a row with that name exists. -/
def insertIgnoreSitio (t : List Sitio × Nat) (nombre : String) : List Sitio × Nat :=
  if (t.1.map Sitio.nombre).contains nombre then t
  else (t.1 ++ [⟨t.2, nombre⟩], t.2 + 1)

/-- `init_db` with a fault oracle for the `ALTER TABLE` statements
(src/app_web.py lines 23-78).  The result is `Except` because an uncaught
error inside `init_db` would propagate to the caller; the `ALTER` loop and
the seed loop, however, wrap every statement in a bare `except`, so no
error of theirs escapes. -/
def init_dbF (fault : String → Option DbError) (s : SchemaState) :
    Except DbError SchemaState :=
  let s1 := createTables s
  let s2 := match s1.equipos with
    | none => s1
    | some (cols, rows) => { s1 with equipos := some (alterLoop fault cols, rows) }
  let s3 := match s2.sitios with
    | none => s2
    | some t => { s2 with sitios := some (estados.foldl insertIgnoreSitio t) }
  .ok s3

/-- `init_db` under fault-free execution. -/
def init_db (s : SchemaState) : SchemaState :=
  match init_dbF (fun _ => none) s with
  | .ok s2 => s2
  | .error _ => s

/-- The site names currently persisted. -/
def sitioNames (s : SchemaState) : List String :=
  match s.sitios with
  | none => []
  | some t => t.1.map Sitio.nombre

/-- A database with neither table, as on first deployment. -/
def freshSchema : SchemaState := { sitios := none, equipos := none }

/-!
The edit-table save handler (src/app_web.py lines 195-235).
-/

/-- A row of the `st.data_editor` dataframe `cambios` as the save handler
reads it.  `id` is `none` for a row the user added on screen (pandas `NaN`,
removed by `.dropna()`); the other cells hold `none` for an empty cell.
`Obra` is the user-facing site name the handler resolves through
`mapa_obras`. -/
structure ScreenRow where
  id : Option Nat
  codigo_inventario : Option String
  Obra : Option String
  tipo : Option String
  codigo_manual : Option String
  detalles : Option String
  empresa : Option String
deriving Repr, DecidableEq

/-- The application database the page works on once `init_db` has run:
the `equipos` rows and the `sitios` rows (the latter also back the
`mapa_obras` name-to-id dictionary built at read time). -/
structure Db where
  equipos : List Equipo
  sitios : List Sitio
deriving Repr, DecidableEq

/-- Python truthiness of a nullable string cell, as tested by
`if row["codigo_inventario"]:` — `None` and `""` are falsy. -/
def truthy : Option String → Bool
  | none => false
  | some s => !(s = "")

/-- `mapa_obras.get(nombre_obra)`: resolve a site name to its id; a missing
or empty name yields `none` (the update then stores SQL NULL). -/
def mapaObras (sitios : List Sitio) : Option String → Option Nat
  | none => none
  | some n => (sitios.find? (fun s => s.nombre = n)).map Sitio.id

/-- `set(cambios["id"].dropna().astype(int).tolist())`: the ids present on
screen. -/
def screenIds (cambios : List ScreenRow) : List Nat :=
  cambios.filterMap ScreenRow.id

/-- The write statements the save handler issues, in order. -/
inductive Stmt where
  | deleteIds (ids : List Nat)
  | updateRow (row : ScreenRow)
deriving Repr, DecidableEq

/-- The deletion block (src/app_web.py lines 202-208): `ids_db` from
`SELECT id FROM equipos`, `ids_del = ids_db - ids_screen`, and one
`DELETE ... WHERE id IN (...)` issued only when `ids_del` is non-empty. -/
def idsDel (cambios : List ScreenRow) (eqs : List Equipo) : List Nat :=
  (eqs.map Equipo.id).filter (fun i => !(screenIds cambios).contains i)

/-- The deletion statement of the save: issued only when `ids_del` is
non-empty. -/
def deleteStmts (cambios : List ScreenRow) (eqs : List Equipo) : List Stmt :=
  if (idsDel cambios eqs).isEmpty then [] else [.deleteIds (idsDel cambios eqs)]

/-- The update loop (src/app_web.py lines 211-227): one
`UPDATE equipos ... WHERE codigo_inventario = %s` per screen row whose
`codigo_inventario` is truthy (`if row["codigo_inventario"]:`). -/
def updateStmts (cambios : List ScreenRow) : List Stmt :=
  cambios.filterMap (fun row =>
    if truthy row.codigo_inventario then some (.updateRow row) else none)

/-- The statement trace of one press of "Guardar Cambios": the deletion
block runs only when `filtro_empresa == "TODAS"`, then the update loop
(src/app_web.py lines 199-227). -/
def stmtsOfSave (filtro : String) (cambios : List ScreenRow)
    (eqs : List Equipo) : List Stmt :=
  (if filtro = "TODAS" then deleteStmts cambios eqs else []) ++ updateStmts cambios

/-- The effect of one statement on the `equipos` table.  The `UPDATE` sets
exactly `sitio_id`, `tipo`, `codigo_manual`, `detalles` and `empresa` on
every row whose `codigo_inventario` matches that of the screen row. -/
def execStmt (sitios : List Sitio) (eqs : List Equipo) : Stmt → List Equipo
  | .deleteIds ids => eqs.filter (fun e => !ids.contains e.id)
  | .updateRow row =>
      eqs.map (fun e =>
        if row.codigo_inventario = some e.codigo_inventario then
          { e with
            sitio_id := mapaObras sitios row.Obra
            tipo := row.tipo
            codigo_manual := row.codigo_manual
            detalles := row.detalles
            empresa := row.empresa }
        else e)

/-- Run the statements of a save in order under a fault oracle: `fault k`
means the statement at index `k` raises, the `except` branch catches it, and
execution stops with the effects of the statements already executed in
place (the persisted-store model applies each statement as it is issued;
the handler opens no transaction).  The boolean records whether the end of
the `try` block — `conn.commit()` — was reached. -/
def runStmts (sitios : List Sitio) (fault : Nat → Bool) :
    Nat → List Stmt → List Equipo → Bool × List Equipo
  | _, [], eqs => (true, eqs)
  | k, stmt :: rest, eqs =>
      if fault k then (false, eqs)
      else runStmts sitios fault (k + 1) rest (execStmt sitios eqs stmt)

/-- The fault-free oracle: every statement succeeds. -/
def noFault : Nat → Bool := fun _ => false

/-- One fault-free press of "Guardar Cambios". -/
def save (filtro : String) (cambios : List ScreenRow) (db : Db) : Db :=
  { db with
    equipos :=
      (runStmts db.sitios noFault 0 (stmtsOfSave filtro cambios db.equipos)
        db.equipos).2 }

/-- The ids persisted in the `equipos` table of a database state. -/
def equipoIds (db : Db) : List Nat := db.equipos.map Equipo.id

/-!
The "Crear Obra" handler (src/app_web.py lines 249-260).
-/

/-- Outcome message of the "Crear Obra" handler. -/
inductive ObraMsg where
  | creada (nombre : String)
  | yaExiste
deriving Repr, DecidableEq

/-- The next `AUTO_INCREMENT` id for `sitios` in the page model: one more
than the largest id present. -/
def nextSitioId (sitios : List Sitio) : Nat :=
  (sitios.map Sitio.id).foldl max 0 + 1

/-- The "Crear Obra" handler: `if nueva_obra:` guards the empty string;
the `INSERT INTO sitios (nombre)` hits the `UNIQUE` constraint when the
name exists, the bare `except` catches it and shows "Ya existe." leaving
the table untouched; otherwise the row is inserted and committed. -/
def crear_obra (nueva_obra : String) (db : Db) : Option ObraMsg × Db :=
  if nueva_obra = "" then (none, db)
  else if (db.sitios.map Sitio.nombre).contains nueva_obra then
    (some .yaExiste, db)
  else
    (some (.creada nueva_obra),
     { db with sitios := db.sitios ++ [⟨nextSitioId db.sitios, nueva_obra⟩] })

/-!
Derived notions and concrete instances used by the theorems below.
-/

/-- The fields of an `equipos` row that the `UPDATE` of the save handler
does not mention in its `SET` clause (everything except `sitio_id`, `tipo`,
`codigo_manual`, `detalles`, `empresa`), collected in a tuple so that
"these fields are unchanged" is one equality. -/
def frozenFields (e : Equipo) :
    Nat × String × Option String × Option String × Option String ×
    Option String × Option String × Option String × Option String ×
    Option String × Option String × Option String × Option String :=
  (e.id, e.codigo_inventario, e.serie, e.marca_modelo, e.usuario, e.ram,
   e.procesador, e.disco, e.mainboard, e.video, e.antivirus, e.windows_ver,
   e.ultima_conexion)

/-- An `equipos` row with the given id, inventory code, notes and company,
all other nullable columns NULL. -/
def mkEquipo (i : Nat) (c : String) (det : Option String)
    (emp : Option String) : Equipo :=
  { id := i, codigo_inventario := c, serie := none, tipo := none,
    marca_modelo := none, usuario := none, sitio_id := none, ram := none,
    procesador := none, disco := none, mainboard := none, video := none,
    antivirus := none, windows_ver := none, ultima_conexion := none,
    codigo_manual := none, detalles := det, empresa := emp }

/-- A screen row with the given id cell, inventory-code cell, notes and
company, all other cells empty. -/
def mkRow (i : Option Nat) (c : Option String) (det : Option String)
    (emp : Option String) : ScreenRow :=
  { id := i, codigo_inventario := c, Obra := none, tipo := none,
    codigo_manual := none, detalles := det, empresa := emp }

/-- A database holding one equipment row of company "MYJ Construccion e
Ingenieria": under the filter "TRALSA" that row is hidden from the screen. -/
def dbHidden : Db :=
  { equipos := [mkEquipo 1 "PC-X" none (some "MYJ Construccion e Ingenieria")],
    sitios := [] }

/-- A database holding equipment of two companies. -/
def dbTwoEmpresas : Db :=
  { equipos := [mkEquipo 1 "PC-1" none (some "TRALSA"),
                mkEquipo 2 "PC-2" none (some "Fysem Ingenieros")],
    sitios := [] }

/-- The screen under the filter "Fysem Ingenieros" over `dbTwoEmpresas`:
only the row of that company is shown. -/
def scrFysem : List ScreenRow :=
  [mkRow (some 2) (some "PC-2") none (some "Fysem Ingenieros")]

/-- A database with two rows of company "TRALSA"; row 1 carries the note
"old". -/
def dbPartial : Db :=
  { equipos := [mkEquipo 1 "PC-A" (some "old") (some "TRALSA"),
                mkEquipo 2 "PC-B" none (some "TRALSA")],
    sitios := [] }

/-- A screen over `dbPartial` where the user removed row 2 and changed the
note of row 1 to "new". -/
def scrPartial : List ScreenRow :=
  [mkRow (some 1) (some "PC-A") (some "new") (some "TRALSA")]

/-- A fault oracle that fails the statement at index 1 — for the save over
`scrPartial` this is the `UPDATE`, issued after the `DELETE`. -/
def faultSecond : Nat → Bool := fun k => k == 1

/-- A fault oracle that fails the `ALTER TABLE ... ADD COLUMN ram`
statement with a cause other than a duplicate column (for example, a lost
connection). -/
def faultRam : String → Option DbError :=
  fun c => if c = "ram" then some .otherError else none

/-- A screen over `dbTwoEmpresas` under the filter "TRALSA": only the row
of that company is shown, with its note edited to "x". -/
def scrTralsa : List ScreenRow :=
  [mkRow (some 1) (some "PC-1") (some "x") (some "TRALSA")]

/-- A database whose sites table holds exactly the three seed names. -/
def dbSeeded : Db :=
  { equipos := [],
    sitios := [⟨1, "LIBRE"⟩, ⟨2, "DEFECTUOSA"⟩, ⟨3, "OFICINA CENTRAL"⟩] }

/-!
Helper lemmas about membership, `List.contains`, and the two idempotent
loops of `init_db`.
-/

/-- `List.contains` agrees with membership (for a lawful `BEq`). -/
theorem mem_of_contains {α : Type} [BEq α] [LawfulBEq α] {l : List α} {a : α}
    (h : l.contains a = true) : a ∈ l := by
  simpa [List.contains] using h

/-- Membership gives `List.contains` (for a lawful `BEq`). -/
theorem contains_of_mem {α : Type} [BEq α] [LawfulBEq α] {l : List α} {a : α}
    (h : a ∈ l) : l.contains a = true := by
  simpa [List.contains] using h

/-- Under fault-free execution, one migration-loop iteration is exactly
"append the column if missing". -/
theorem alterStep_none (cs : List String) (p : String × String) :
    alterStep (fun _ => none) cs p =
      if cs.contains p.1 then cs else cs ++ [p.1] := by
  unfold alterStep alterAddColumn
  cases hc : cs.contains p.1 <;> simp [hc]

/-- Columns already present survive the fault-free migration loop. -/
theorem foldl_alter_mono (l : List (String × String)) :
    ∀ cs : List String, ∀ c ∈ cs,
      c ∈ l.foldl (alterStep (fun _ => none)) cs := by
  induction l with
  | nil => intro cs c hc; simpa using hc
  | cons p l ih =>
    intro cs c hc
    rw [List.foldl_cons]
    refine ih _ c ?_
    rw [alterStep_none]
    split
    · exact hc
    · exact List.mem_append_left _ hc

/-- Every listed column is present after the fault-free migration loop. -/
theorem foldl_alter_mem (l : List (String × String)) :
    ∀ cs : List String, ∀ p ∈ l, p.1 ∈ l.foldl (alterStep (fun _ => none)) cs := by
  induction l with
  | nil => intro cs p hp; cases hp
  | cons q l ih =>
    intro cs p hp
    rw [List.foldl_cons]
    rcases List.mem_cons.mp hp with rfl | hp
    · apply foldl_alter_mono
      rw [alterStep_none]
      split
      · next h => exact mem_of_contains h
      · exact List.mem_append_right _ (List.mem_singleton.mpr rfl)
    · exact ih _ p hp

/-- The fault-free migration loop is a no-op when every listed column is
already present. -/
theorem foldl_alter_fix (l : List (String × String)) :
    ∀ cs : List String, (∀ p ∈ l, p.1 ∈ cs) →
      l.foldl (alterStep (fun _ => none)) cs = cs := by
  induction l with
  | nil => intro cs _; rfl
  | cons p l ih =>
    intro cs h
    rw [List.foldl_cons, alterStep_none,
      if_pos (contains_of_mem (h p (List.mem_cons_self p l)))]
    exact ih cs fun q hq => h q (List.mem_cons_of_mem p hq)

/-- `INSERT IGNORE` never loses an existing site name. -/
theorem insertIgnore_names_mono (t : List Sitio × Nat) (n m : String)
    (h : m ∈ t.1.map Sitio.nombre) :
    m ∈ (insertIgnoreSitio t n).1.map Sitio.nombre := by
  unfold insertIgnoreSitio
  split
  · exact h
  · simp only [List.map_append]
    exact List.mem_append_left _ h

/-- Site names present before the seed loop are present after it. -/
theorem foldl_seed_mono (l : List String) :
    ∀ t : List Sitio × Nat, ∀ m ∈ t.1.map Sitio.nombre,
      m ∈ (l.foldl insertIgnoreSitio t).1.map Sitio.nombre := by
  induction l with
  | nil => intro t m hm; exact hm
  | cons n l ih =>
    intro t m hm
    exact ih _ m (insertIgnore_names_mono t n m hm)

/-- Every seeded name is present after the seed loop. -/
theorem foldl_seed_mem (l : List String) :
    ∀ t : List Sitio × Nat, ∀ n ∈ l,
      n ∈ (l.foldl insertIgnoreSitio t).1.map Sitio.nombre := by
  induction l with
  | nil => intro t n hn; cases hn
  | cons q l ih =>
    intro t n hn
    rcases List.mem_cons.mp hn with rfl | hn
    · rw [List.foldl_cons]
      apply foldl_seed_mono
      unfold insertIgnoreSitio
      split
      · next h => exact mem_of_contains h
      · simp only [List.map_append]
        exact List.mem_append_right _ (by simp)
    · exact ih _ n hn

/-- The seed loop is a no-op when every seeded name is already present. -/
theorem foldl_seed_fix (l : List String) :
    ∀ t : List Sitio × Nat, (∀ n ∈ l, n ∈ t.1.map Sitio.nombre) →
      l.foldl insertIgnoreSitio t = t := by
  induction l with
  | nil => intro t _; rfl
  | cons n l ih =>
    intro t h
    rw [List.foldl_cons]
    have hstep : insertIgnoreSitio t n = t := by
      unfold insertIgnoreSitio
      rw [if_pos (contains_of_mem (h n (List.mem_cons_self n l)))]
    rw [hstep]
    exact ih t fun q hq => h q (List.mem_cons_of_mem n hq)

/-- Closed form of a fault-free `init_db` run: both tables exist afterwards,
the column list has gone through the migration loop, and the site rows have
gone through the seed loop. -/
theorem init_db_eq (s : SchemaState) :
    init_db s =
      { sitios := some (estados.foldl insertIgnoreSitio (s.sitios.getD ([], 1))),
        equipos := some
          (alterLoop (fun _ => none) (s.equipos.getD (equiposBaseCols, [])).1,
           (s.equipos.getD (equiposBaseCols, [])).2) } := by
  obtain ⟨ss, se⟩ := s
  cases ss with
  | none =>
    cases se with
    | none => rfl
    | some pe => obtain ⟨cols, rows⟩ := pe; rfl
  | some ts =>
    cases se with
    | none => rfl
    | some pe => obtain ⟨cols, rows⟩ := pe; rfl

/-- Running the migration loop twice adds nothing the first run did not. -/
theorem alterLoop_fix_all (cols : List String) :
    alterLoop (fun _ => none) (alterLoop (fun _ => none) cols) =
      alterLoop (fun _ => none) cols :=
  foldl_alter_fix _ _ (fun p hp => foldl_alter_mem _ _ p hp)

/-- Running the seed loop twice adds nothing the first run did not. -/
theorem seedFold_fix_all (t : List Sitio × Nat) :
    estados.foldl insertIgnoreSitio (estados.foldl insertIgnoreSitio t) =
      estados.foldl insertIgnoreSitio t :=
  foldl_seed_fix _ _ (fun n hn => foldl_seed_mem _ _ n hn)

/-- `init_db` is a fixed point after one application. -/
theorem init_db_fix (s : SchemaState) : init_db (init_db s) = init_db s := by
  rw [init_db_eq s, init_db_eq]
  dsimp only [Option.getD_some]
  rw [alterLoop_fix_all, seedFold_fix_all]

/-- Any positive number of `init_db` runs equals one run. -/
theorem init_db_iter_succ (s : SchemaState) (m : Nat) :
    init_db^[m + 1] s = init_db s := by
  induction m with
  | zero => simp
  | succ k ih => rw [Function.iterate_succ_apply', ih, init_db_fix]

/-- Every seed state name is present after one `init_db` run. -/
theorem seed_present (s : SchemaState) : ∀ n ∈ estados, n ∈ sitioNames (init_db s) := by
  intro n hn
  rw [init_db_eq]
  dsimp only [sitioNames]
  exact foldl_seed_mem _ _ n hn

/-- C4: the Schema Synchronizer (`init_db`) is idempotent — for every
`N ≥ 1`, running it `N` times in sequence from any starting database state
yields the same final schema (tables, columns and seed rows) as running it
once from that state. -/
theorem init_db_idempotent (s : SchemaState) (n : Nat) (hn : 1 ≤ n) :
    init_db^[n] s = init_db s := by
  obtain ⟨m, rfl⟩ : ∃ m, n = m + 1 := ⟨n - 1, by omega⟩
  exact init_db_iter_succ s m

/-- Witness for C4 at `n = 2` from the fresh database. -/
theorem init_db_idempotent_witness :
    1 ≤ 2 ∧ init_db^[2] freshSchema = init_db freshSchema :=
  ⟨by decide, init_db_idempotent freshSchema 2 (by decide)⟩

/-- C5: after any `N ≥ 1` runs of `init_db`, each of the three seed site
names "LIBRE", "DEFECTUOSA" and "OFICINA CENTRAL" is present in the
persisted sites table, and re-running initialization (one more run) never
duplicates or removes them — every seed name keeps its exact multiplicity. -/
theorem seed_sites_stable (s : SchemaState) (n : Nat) (hn : 1 ≤ n) :
    "LIBRE" ∈ sitioNames (init_db^[n] s) ∧
    "DEFECTUOSA" ∈ sitioNames (init_db^[n] s) ∧
    "OFICINA CENTRAL" ∈ sitioNames (init_db^[n] s) ∧
    ∀ est ∈ estados,
      (sitioNames (init_db^[n + 1] s)).count est =
        (sitioNames (init_db^[n] s)).count est := by
  obtain ⟨m, rfl⟩ : ∃ m, n = m + 1 := ⟨n - 1, by omega⟩
  rw [init_db_iter_succ s (m + 1), init_db_iter_succ s m]
  refine ⟨?_, ?_, ?_, fun est _ => rfl⟩ <;>
    exact seed_present s _ (by simp [estados])

/-- Witness for C5 at `n = 1` from the fresh database. -/
theorem seed_sites_stable_witness :
    1 ≤ 1 ∧
    ("LIBRE" ∈ sitioNames (init_db^[1] freshSchema) ∧
     "DEFECTUOSA" ∈ sitioNames (init_db^[1] freshSchema) ∧
     "OFICINA CENTRAL" ∈ sitioNames (init_db^[1] freshSchema) ∧
     ∀ est ∈ estados,
       (sitioNames (init_db^[1 + 1] freshSchema)).count est =
         (sitioNames (init_db^[1] freshSchema)).count est) :=
  ⟨by decide, seed_sites_stable freshSchema 1 (by decide)⟩

/-- C6 counterexample: an `ALTER TABLE ... ADD COLUMN ram` failure whose
cause is not "column already exists" (here `otherError`, e.g. a lost
connection) is NOT surfaced to the caller: `init_db` still returns
normally, with the column simply missing from the resulting schema.  This
refutes the claim that every non-duplicate column-addition failure is
fatal for the request. -/
theorem alter_other_failure_swallowed_cex :
    faultRam "ram" = some DbError.otherError ∧
    DbError.otherError ≠ DbError.duplicateColumn ∧
    alterAddColumn faultRam equiposBaseCols "ram" = .error DbError.otherError ∧
    (init_dbF faultRam freshSchema).isOk = true ∧
    (init_dbF faultRam freshSchema).toOption.map
      (fun s2 => (s2.equipos.getD (equiposBaseCols, [])).1.contains "ram") =
      some false := by
  refine ⟨rfl, by decide, rfl, rfl, by decide⟩

/-- C6 amended: during schema synchronization every column-addition
failure is ignored, whatever its cause — the bare `except` swallows the
error, the loop continues with the columns unchanged, and `init_db` always
returns normally to the caller. -/
theorem alter_failures_ignored (fault : String → Option DbError)
    (cs : List String) (p : String × String) (e : DbError)
    (he : alterAddColumn fault cs p.1 = .error e) :
    alterStep fault cs p = cs ∧
    ∀ s : SchemaState, (init_dbF fault s).isOk = true := by
  constructor
  · simp [alterStep, he]
  · intro s; rfl

/-- Witness for C6 amended: the non-duplicate failure on column "ram". -/
theorem alter_failures_ignored_witness :
    alterStep faultRam [] ("ram", "VARCHAR(50)") = [] ∧
    (init_dbF faultRam freshSchema).isOk = true :=
  ⟨(alter_failures_ignored faultRam [] ("ram", "VARCHAR(50)")
      DbError.otherError rfl).1,
   (alter_failures_ignored faultRam [] ("ram", "VARCHAR(50)")
      DbError.otherError rfl).2 freshSchema⟩

/-!
Helper lemmas about the save handler.
-/

/-- `List.contains` is false exactly on non-members. -/
theorem contains_eq_false_of_not_mem {α : Type} [BEq α] [LawfulBEq α]
    {l : List α} {a : α} (h : a ∉ l) : l.contains a = false := by
  cases hc : l.contains a
  · rfl
  · exact absurd (mem_of_contains hc) h

/-- Fault-free execution of a statement list is a left fold of `execStmt`,
and reaches the commit. -/
theorem runStmts_noFault (sitios : List Sitio) (stmts : List Stmt) :
    ∀ (k : Nat) (eqs : List Equipo),
      runStmts sitios noFault k stmts eqs =
        (true, stmts.foldl (execStmt sitios) eqs) := by
  induction stmts with
  | nil => intro k eqs; rfl
  | cons st rest ih =>
    intro k eqs
    rw [runStmts]
    simp only [noFault, Bool.false_eq_true, if_false]
    exact ih (k + 1) _

/-- The rows persisted after a fault-free save are the fold of its
statement trace. -/
theorem save_equipos (filtro : String) (cambios : List ScreenRow) (db : Db) :
    (save filtro cambios db).equipos =
      (stmtsOfSave filtro cambios db.equipos).foldl (execStmt db.sitios)
        db.equipos := by
  simp [save, runStmts_noFault]

/-- Membership in `ids_del`: persisted ids absent from the screen. -/
theorem mem_idsDel (cambios : List ScreenRow) (eqs : List Equipo) (i : Nat) :
    i ∈ idsDel cambios eqs ↔
      i ∈ eqs.map Equipo.id ∧ i ∉ screenIds cambios := by
  simp [idsDel, List.mem_filter, List.contains]

/-- Membership in the update-statement list. -/
theorem mem_updateStmts (cambios : List ScreenRow) (st : Stmt) :
    st ∈ updateStmts cambios ↔
      ∃ r ∈ cambios, truthy r.codigo_inventario = true ∧ st = .updateRow r := by
  simp only [updateStmts, List.mem_filterMap]
  constructor
  · rintro ⟨r, hr, h⟩
    by_cases ht : truthy r.codigo_inventario
    · rw [if_pos ht] at h
      exact ⟨r, hr, ht, (Option.some.inj h).symm⟩
    · rw [if_neg ht] at h; cases h
  · rintro ⟨r, hr, ht, rfl⟩
    exact ⟨r, hr, by rw [if_pos ht]⟩

/-- An update statement changes the id of no row. -/
theorem execStmt_update_ids (sitios : List Sitio) (r : ScreenRow)
    (eqs : List Equipo) :
    (execStmt sitios eqs (.updateRow r)).map Equipo.id = eqs.map Equipo.id := by
  simp only [execStmt, List.map_map]
  refine List.map_congr_left fun e he => ?_
  by_cases h : r.codigo_inventario = some e.codigo_inventario <;>
    simp [Function.comp, h]

/-- A fold of update statements preserves the id column exactly. -/
theorem foldl_updates_ids (sitios : List Sitio) (stmts : List Stmt) :
    (∀ st ∈ stmts, ∃ r, st = .updateRow r) →
    ∀ eqs : List Equipo,
      (stmts.foldl (execStmt sitios) eqs).map Equipo.id = eqs.map Equipo.id := by
  induction stmts with
  | nil => intro _ eqs; rfl
  | cons st rest ih =>
    intro h eqs
    rw [List.foldl_cons, ih (fun q hq => h q (List.mem_cons_of_mem st hq)) _]
    obtain ⟨r, rfl⟩ := h st (List.mem_cons_self st rest)
    exact execStmt_update_ids sitios r eqs

/-- Ids surviving the deletion block: exactly the persisted ids that are
also on screen. -/
theorem deleteStmts_ids (sitios : List Sitio) (cambios : List ScreenRow)
    (eqs : List Equipo) (i : Nat) :
    i ∈ ((deleteStmts cambios eqs).foldl (execStmt sitios) eqs).map Equipo.id ↔
      i ∈ eqs.map Equipo.id ∧ i ∈ screenIds cambios := by
  unfold deleteStmts
  by_cases hemp : (idsDel cambios eqs).isEmpty
  · rw [if_pos hemp, List.foldl_nil]
    have hall : ∀ j ∈ eqs.map Equipo.id, j ∈ screenIds cambios := by
      intro j hj
      by_contra hjn
      have hjd : j ∈ idsDel cambios eqs := (mem_idsDel cambios eqs j).mpr ⟨hj, hjn⟩
      rw [List.isEmpty_iff.mp hemp] at hjd
      cases hjd
    exact ⟨fun hi => ⟨hi, hall i hi⟩, fun hi => hi.1⟩
  · rw [if_neg hemp, List.foldl_cons, List.foldl_nil]
    constructor
    · intro hi
      simp only [execStmt, List.mem_map, List.mem_filter] at hi
      obtain ⟨e, ⟨he, hke⟩, rfl⟩ := hi
      have hnotdel : e.id ∉ idsDel cambios eqs := by
        intro hmem
        rw [contains_of_mem hmem] at hke
        cases hke
      have hid : e.id ∈ eqs.map Equipo.id := List.mem_map.mpr ⟨e, he, rfl⟩
      have hscr : e.id ∈ screenIds cambios := by
        by_contra hns
        exact hnotdel ((mem_idsDel _ _ _).mpr ⟨hid, hns⟩)
      exact ⟨hid, hscr⟩
    · rintro ⟨hi, hscr⟩
      obtain ⟨e, he, rfl⟩ := List.mem_map.mp hi
      refine List.mem_map.mpr ⟨e, List.mem_filter.mpr ⟨he, ?_⟩, rfl⟩
      have hnd : e.id ∉ idsDel cambios eqs := fun hmem =>
        ((mem_idsDel _ _ _).mp hmem).2 hscr
      rw [contains_eq_false_of_not_mem hnd]
      rfl

/-- Membership of an id in the persisted table after a save with the
filter at "TODAS". -/
theorem save_TODAS_mem_ids (cambios : List ScreenRow) (db : Db) (i : Nat) :
    i ∈ equipoIds (save "TODAS" cambios db) ↔
      i ∈ equipoIds db ∧ i ∈ screenIds cambios := by
  rw [equipoIds, save_equipos]
  unfold stmtsOfSave
  rw [if_pos rfl, List.foldl_append,
    foldl_updates_ids _ _
      (fun st hst => by
        obtain ⟨r, _, _, rfl⟩ := (mem_updateStmts cambios st).mp hst
        exact ⟨r, rfl⟩) _]
  exact deleteStmts_ids db.sitios cambios db.equipos i

/-- Every row present after one statement descends from a previous row
with the same frozen fields. -/
theorem execStmt_frame (sitios : List Sitio) (st : Stmt) (eqs : List Equipo) :
    ∀ e2 ∈ execStmt sitios eqs st,
      ∃ e ∈ eqs, frozenFields e = frozenFields e2 := by
  intro e2 h2
  cases st with
  | deleteIds ids =>
    simp only [execStmt, List.mem_filter] at h2
    exact ⟨e2, h2.1, rfl⟩
  | updateRow r =>
    simp only [execStmt, List.mem_map] at h2
    obtain ⟨e, he, rfl⟩ := h2
    refine ⟨e, he, ?_⟩
    by_cases h : r.codigo_inventario = some e.codigo_inventario <;>
      simp [frozenFields, h]

/-- Every row present after a fold of statements descends from an initial
row with the same frozen fields. -/
theorem foldl_exec_frame (sitios : List Sitio) (stmts : List Stmt) :
    ∀ eqs : List Equipo, ∀ e2 ∈ stmts.foldl (execStmt sitios) eqs,
      ∃ e ∈ eqs, frozenFields e = frozenFields e2 := by
  induction stmts with
  | nil => intro eqs e2 h2; exact ⟨e2, h2, rfl⟩
  | cons st rest ih =>
    intro eqs e2 h2
    rw [List.foldl_cons] at h2
    obtain ⟨e1, h1, heq1⟩ := ih _ e2 h2
    obtain ⟨e0, h0, heq0⟩ := execStmt_frame sitios st eqs e1 h1
    exact ⟨e0, h0, heq0.trans heq1⟩

/-- Every row persisted after a save descends from a row persisted before
it with the same frozen fields. -/
theorem save_frame (filtro : String) (cambios : List ScreenRow) (db : Db) :
    ∀ e2 ∈ (save filtro cambios db).equipos,
      ∃ e ∈ db.equipos, frozenFields e = frozenFields e2 := by
  intro e2 h2
  rw [save_equipos] at h2
  exact foldl_exec_frame _ _ _ e2 h2

/-- A row whose inventory code differs from that of the screen row is left
exactly as it was by the update statement. -/
theorem execStmt_update_fix (sitios : List Sitio) (r : ScreenRow)
    (eqs : List Equipo) (e : Equipo) (he : e ∈ eqs)
    (hne : r.codigo_inventario ≠ some e.codigo_inventario) :
    e ∈ execStmt sitios eqs (.updateRow r) := by
  simp only [execStmt, List.mem_map]
  exact ⟨e, he, by rw [if_neg hne]⟩

/-- A row matched by none of the update statements survives the whole
update loop unchanged. -/
theorem foldl_updates_fix (sitios : List Sitio) (stmts : List Stmt)
    (e : Equipo) :
    (∀ st ∈ stmts, ∃ r, st = .updateRow r ∧
      r.codigo_inventario ≠ some e.codigo_inventario) →
    ∀ eqs : List Equipo, e ∈ eqs → e ∈ stmts.foldl (execStmt sitios) eqs := by
  induction stmts with
  | nil => intro _ eqs he; exact he
  | cons st rest ih =>
    intro h eqs he
    rw [List.foldl_cons]
    obtain ⟨r, rfl, hner⟩ := h st (List.mem_cons_self st rest)
    exact ih (fun q hq => h q (List.mem_cons_of_mem _ hq)) _
      (execStmt_update_fix sitios r eqs e he hner)

/-- C1 counterexample: a save performed with an active company filter
("TRALSA") over a database whose only row belongs to another company.  The
screen is empty, so no on-screen row is newly added, yet after the save the
persisted key set still holds id 1 while the screen key set is empty: the
claimed key-set equality fails for this save. -/
theorem save_keys_eq_filtered_cex :
    (∀ r ∈ ([] : List ScreenRow), ∃ e ∈ dbHidden.equipos, r.id = some e.id) ∧
    equipoIds (save "TRALSA" [] dbHidden) = [1] ∧
    screenIds ([] : List ScreenRow) = [] ∧
    (equipoIds (save "TRALSA" [] dbHidden)).toFinset ≠
      (screenIds ([] : List ScreenRow)).toFinset := by
  refine ⟨by decide, by decide, rfl, ?_⟩
  intro h
  have h1 : (1 : Nat) ∈ (equipoIds (save "TRALSA" [] dbHidden)).toFinset := by
    decide
  rw [h] at h1
  cases List.mem_toFinset.mp h1

/-- C1 (amended): for every save of the edit-table performed with the
company filter at "TODAS", assuming no on-screen row is a newly added row
(every screen row carries the id of a persisted row), after the save the
set of keys of the persisted equipment table equals the set of keys shown
on screen exactly. -/
theorem save_todas_keys_eq (cambios : List ScreenRow) (db : Db)
    (hnew : ∀ r ∈ cambios, ∃ e ∈ db.equipos, r.id = some e.id) :
    (equipoIds (save "TODAS" cambios db)).toFinset =
      (screenIds cambios).toFinset := by
  ext i
  simp only [List.mem_toFinset]
  rw [save_TODAS_mem_ids]
  constructor
  · exact fun h => h.2
  · intro hscr
    refine ⟨?_, hscr⟩
    obtain ⟨r, hr, hri⟩ := List.mem_filterMap.mp hscr
    obtain ⟨e, he, hei⟩ := hnew r hr
    have : e.id = i := Option.some.inj (hei.symm.trans hri)
    exact List.mem_map.mpr ⟨e, he, this⟩

/-- Witness for C1 (amended): a concrete full-view save. -/
theorem save_todas_keys_eq_witness :
    (equipoIds (save "TODAS" scrPartial dbPartial)).toFinset =
      (screenIds scrPartial).toFinset :=
  save_todas_keys_eq scrPartial dbPartial (by decide)

/-- C2 counterexample: a save performed with an active company filter
("Fysem Ingenieros").  Row id 1 is persisted and absent from the screen,
so by the claim it should be deleted, yet it survives the save. -/
theorem save_deletes_filtered_cex :
    mkEquipo 1 "PC-1" none (some "TRALSA") ∈ dbTwoEmpresas.equipos ∧
    1 ∉ screenIds scrFysem ∧
    1 ∈ equipoIds (save "Fysem Ingenieros" scrFysem dbTwoEmpresas) := by
  decide

/-- C2 (amended): on every save of the edit-table performed with the
company filter at "TODAS", the rows deleted from the persisted equipment
table are exactly those whose key (id) is present in the persisted table
but absent from the set of keys shown on screen, each deleted by its key:
a persisted row disappears from the key set if and only if its id is not
on screen. -/
theorem save_todas_deletes_absent (cambios : List ScreenRow) (db : Db)
    (e : Equipo) (he : e ∈ db.equipos) :
    (e.id ∉ equipoIds (save "TODAS" cambios db) ↔
      e.id ∉ screenIds cambios) := by
  have h1 := save_TODAS_mem_ids cambios db e.id
  have h2 : e.id ∈ equipoIds db := List.mem_map.mpr ⟨e, he, rfl⟩
  constructor
  · intro hn hscr
    exact hn (h1.mpr ⟨h2, hscr⟩)
  · intro hn hmem
    exact hn (h1.mp hmem).2

/-- Witness for C2 (amended): the row with id 2 is absent from the screen
and is deleted by the save. -/
theorem save_todas_deletes_absent_witness :
    mkEquipo 2 "PC-B" none (some "TRALSA") ∈ dbPartial.equipos ∧
    ((mkEquipo 2 "PC-B" none (some "TRALSA")).id ∉
        equipoIds (save "TODAS" scrPartial dbPartial) ↔
      (mkEquipo 2 "PC-B" none (some "TRALSA")).id ∉ screenIds scrPartial) :=
  ⟨by decide,
   save_todas_deletes_absent scrPartial dbPartial
     (mkEquipo 2 "PC-B" none (some "TRALSA")) (by decide)⟩

/-- C3: a save performed while a specific company filter (≠ "TODAS") is
active deletes nothing — the persisted id column is exactly preserved —
and every row hidden by the filter (its company differs from the filter)
remains persisted unchanged.  The hypotheses state what the page
guarantees at load time: inventory codes are unique (the UNIQUE column),
and every screen row with a truthy code comes from a persisted row of the
filtered company. -/
theorem save_filtered_updates_only (filtro : String) (cambios : List ScreenRow)
    (db : Db) (hf : filtro ≠ "TODAS")
    (hnodup : (db.equipos.map Equipo.codigo_inventario).Nodup)
    (hscr : ∀ r ∈ cambios, truthy r.codigo_inventario = true →
      ∃ e ∈ db.equipos, some e.codigo_inventario = r.codigo_inventario ∧
        e.empresa = some filtro) :
    equipoIds (save filtro cambios db) = equipoIds db ∧
    ∀ e ∈ db.equipos, e.empresa ≠ some filtro →
      e ∈ (save filtro cambios db).equipos := by
  have hstmts : stmtsOfSave filtro cambios db.equipos = updateStmts cambios := by
    unfold stmtsOfSave
    rw [if_neg hf, List.nil_append]
  have hupd : ∀ st ∈ updateStmts cambios, ∃ r, st = .updateRow r := by
    intro st hst
    obtain ⟨r, _, _, rfl⟩ := (mem_updateStmts cambios st).mp hst
    exact ⟨r, rfl⟩
  constructor
  · rw [equipoIds, save_equipos, hstmts, foldl_updates_ids _ _ hupd]
    rfl
  · intro e he hemp
    rw [save_equipos, hstmts]
    refine foldl_updates_fix db.sitios (updateStmts cambios) e ?_ db.equipos he
    intro st hst
    obtain ⟨r, hr, ht, rfl⟩ := (mem_updateStmts cambios st).mp hst
    refine ⟨r, rfl, ?_⟩
    intro hcod
    obtain ⟨e2, he2, hc2, hemp2⟩ := hscr r hr ht
    have hce : e2.codigo_inventario = e.codigo_inventario :=
      Option.some.inj (hc2.trans hcod)
    have hee : e2 = e := List.inj_on_of_nodup_map hnodup he2 he hce
    rw [hee] at hemp2
    exact hemp hemp2

/-- Witness for C3: a filtered save over `dbTwoEmpresas` editing the
TRALSA row; the Fysem row is hidden and stays persisted unchanged. -/
theorem save_filtered_updates_only_witness :
    equipoIds (save "TRALSA" scrTralsa dbTwoEmpresas) =
      equipoIds dbTwoEmpresas ∧
    mkEquipo 2 "PC-2" none (some "Fysem Ingenieros") ∈
      (save "TRALSA" scrTralsa dbTwoEmpresas).equipos :=
  ⟨(save_filtered_updates_only "TRALSA" scrTralsa dbTwoEmpresas
      (by decide) (by decide) (by decide)).1,
   (save_filtered_updates_only "TRALSA" scrTralsa dbTwoEmpresas
      (by decide) (by decide) (by decide)).2
     (mkEquipo 2 "PC-2" none (some "Fysem Ingenieros")) (by decide) (by decide)⟩

/-- C7: the save has no transaction boundary spanning the whole
delete-plus-update sequence — the handler issues its statements one by one
with a single commit at the end, so under the store model where each
issued statement takes effect, a persistence error partway leaves earlier
writes applied.  Concrete run over `dbPartial`: the fault hits the UPDATE
(statement index 1) after the DELETE (statement index 0) was issued; the
commit is never reached, row 2 is gone (the delete took effect) but the
note of row 1 still reads "old" (the update did not) — a state different
from both the initial and the fully saved one. -/
theorem save_partial_write_on_error :
    (runStmts dbPartial.sitios faultSecond 0
        (stmtsOfSave "TODAS" scrPartial dbPartial.equipos)
        dbPartial.equipos).1 = false ∧
    (runStmts dbPartial.sitios faultSecond 0
        (stmtsOfSave "TODAS" scrPartial dbPartial.equipos)
        dbPartial.equipos).2 =
      [mkEquipo 1 "PC-A" (some "old") (some "TRALSA")] ∧
    (save "TODAS" scrPartial dbPartial).equipos =
      [mkEquipo 1 "PC-A" (some "new") (some "TRALSA")] ∧
    (runStmts dbPartial.sitios faultSecond 0
        (stmtsOfSave "TODAS" scrPartial dbPartial.equipos)
        dbPartial.equipos).2 ≠ dbPartial.equipos ∧
    (runStmts dbPartial.sitios faultSecond 0
        (stmtsOfSave "TODAS" scrPartial dbPartial.equipos)
        dbPartial.equipos).2 ≠ (save "TODAS" scrPartial dbPartial).equipos := by
  decide

/-- C8: attempting to create a Site whose name already exists fails — the
uniqueness violation is caught, the handler reports the non-fatal message
"Ya existe.", and the persisted sites table is returned exactly
unchanged. -/
theorem crear_obra_duplicate_rejected (nueva : String) (db : Db)
    (hne : nueva ≠ "") (hdup : nueva ∈ db.sitios.map Sitio.nombre) :
    crear_obra nueva db = (some ObraMsg.yaExiste, db) := by
  unfold crear_obra
  rw [if_neg hne, if_pos (contains_of_mem hdup)]

/-- Witness for C8: re-creating the seed site "LIBRE". -/
theorem crear_obra_duplicate_rejected_witness :
    crear_obra "LIBRE" dbSeeded = (some ObraMsg.yaExiste, dbSeeded) :=
  crear_obra_duplicate_rejected "LIBRE" dbSeeded (by decide) (by decide)

/-- C9: a screen row whose inventory code is empty or absent is silently
skipped by the update phase — no UPDATE statement is issued for it — and
the save never inserts a new equipment row: every id persisted after the
save already belonged to a persisted row. -/
theorem blank_key_rows_skipped (filtro : String) (cambios : List ScreenRow)
    (db : Db) (r : ScreenRow) (_hr : r ∈ cambios)
    (hblank : truthy r.codigo_inventario = false) :
    Stmt.updateRow r ∉ stmtsOfSave filtro cambios db.equipos ∧
    ∀ e2 ∈ (save filtro cambios db).equipos, ∃ e ∈ db.equipos, e2.id = e.id := by
  constructor
  · intro hmem
    unfold stmtsOfSave at hmem
    rcases List.mem_append.mp hmem with hdel | hupd
    · split at hdel
      · unfold deleteStmts at hdel
        split at hdel
        · cases hdel
        · exact Stmt.noConfusion (List.mem_singleton.mp hdel)
      · cases hdel
    · obtain ⟨r2, _, ht2, heq⟩ := (mem_updateStmts cambios _).mp hupd
      cases Stmt.updateRow.inj heq
      rw [hblank] at ht2
      cases ht2
  · intro e2 h2
    obtain ⟨e, he, hfr⟩ := save_frame filtro cambios db e2 h2
    exact ⟨e, he, (congrArg Prod.fst hfr).symm⟩

/-- Witness for C9: a newly added screen row (all cells empty) produces no
update statement. -/
theorem blank_key_rows_skipped_witness :
    Stmt.updateRow (mkRow none none none none) ∉
      stmtsOfSave "TODAS" [mkRow none none none none] dbHidden.equipos :=
  (blank_key_rows_skipped "TODAS" [mkRow none none none none] dbHidden
    (mkRow none none none none) (by decide) (by decide)).1

/-- C10: every row persisted after a save descends from a previously
persisted row whose frozen fields — id, codigo_inventario, serie,
marca_modelo, usuario, ram, procesador, disco, mainboard, video,
antivirus, windows_ver, ultima_conexion — are identical: the update may
change only sitio_id, tipo, codigo_manual, detalles and empresa. -/
theorem save_changes_only_update_fields (filtro : String)
    (cambios : List ScreenRow) (db : Db) (e2 : Equipo)
    (h2 : e2 ∈ (save filtro cambios db).equipos) :
    ∃ e ∈ db.equipos, frozenFields e = frozenFields e2 :=
  save_frame filtro cambios db e2 h2

/-- Witness for C10: the updated row 1 of `dbPartial` keeps its frozen
fields. -/
theorem save_changes_only_update_fields_witness :
    ∃ e ∈ dbPartial.equipos,
      frozenFields e =
        frozenFields (mkEquipo 1 "PC-A" (some "new") (some "TRALSA")) :=
  save_changes_only_update_fields "TODAS" scrPartial dbPartial
    (mkEquipo 1 "PC-A" (some "new") (some "TRALSA")) (by decide)
